import Mathlib

/-!
Verification of the region-detection and diagram-localization engine of the
quiz_backend PDF processor.

The Python sources embedded here are:
* `detect_diagrams_hybrid.py` — `detect_diagrams_hybrid` (contour/density +
  grid detection, area-sorted overlap suppression) and
  `detect_coordinate_grids` (grid Method 1 on intersection clusters, grid
  Method 2 on Hough lines);
* `detect_diagrams_yolo.py` — `AdvancedLayoutDetector.detect_diagrams`
  (morphological + blob candidates, confidence-sorted overlap suppression)
  and `detect_with_layout_analysis`;
* `app/services/pdf_processor.py` — `PDFProcessor.detect_regions`
  (contour classification pass and the Hough-line fallback);
* `test_enriched_batch_processor.py` — the per-question detection cascade
  inside `enriched_batch_process_pdf` (keyword need check, tiers 1-4).

Modelling conventions:
* pixel coordinates and areas are integers, exactly as in the source;
* Python float arithmetic on confidences, aspect ratios, densities and
  spacing statistics is modelled exactly over `ℚ` (the comparisons in the
  source are threshold tests whose operands are ratios of integers);
* `numpy.std` is a square root; the source's tests `std/mean < 2.0` are
  embedded by the exact equivalent `var < 4 * mean^2` (for `mean > 0`), and
  the equivalence with the real-valued coefficient of variation is proved
  (`cvLt2_iff_real`), so no irrational number has to be computed;
* the display rounding `round(x, 1)` applied to confidences when they are
  stored is abstracted away (the claims are about the unrounded formulas);
* opencv calls (contour extraction, Hough transform, blob detection) are
  opaque pixel-level collaborators: their outputs (contours with measured
  features, line segments, intersection clusters, detector candidate lists)
  are the inputs of the embedded functions, which is where every claim in
  scope begins.
-/

/-! ### Candidates and the overlap resolver

A detection candidate as built by `detect_diagrams_hybrid` and
`AdvancedLayoutDetector.detect_diagrams`: a bounding box stored as
`(x1, y1, x2, y2)` plus a confidence score.  Every constructor in the source
sets the stored `area` field to `(x2 - x1) * (y2 - y1)`, so the area is kept
as a function of the box rather than a separate field. -/

structure Candidate where
  x1 : ℤ
  y1 : ℤ
  x2 : ℤ
  y2 : ℤ
  confidence : ℚ
deriving DecidableEq, Repr

/-- The `area` field every detector stores with a candidate:
`w * h` of the bounding box. -/
def carea (c : Candidate) : ℤ := (c.x2 - c.x1) * (c.y2 - c.y1)

/-- Bounding-box intersection area by rectangle clamp, zero if disjoint:
`overlap_x = max(0, min(x2, ex2) - max(x1, ex1))` (same for y), multiplied. -/
def interArea (a b : Candidate) : ℤ :=
  max 0 (min a.x2 b.x2 - max a.x1 b.x1) * max 0 (min a.y2 b.y2 - max a.y1 b.y1)

/-- The source test `overlap_area > diag['area'] * 0.5`, exactly:
both operands are integers, so it is `area < 2 * overlap`. -/
def overHalf (c e : Candidate) : Prop := carea c < 2 * interArea c e

instance (c e : Candidate) : Decidable (overHalf c e) :=
  inferInstanceAs (Decidable (_ < _))

/-- One step of the suppression loop shared by both detectors: a candidate
is appended to the kept list unless it overlaps some already-kept candidate
by more than half of its own area. -/
def keepStep (kept : List Candidate) (c : Candidate) : List Candidate :=
  if kept.any fun e => decide (overHalf c e) then kept else kept ++ [c]

/-- The suppression loop of `detect_diagrams_hybrid` (lines 108-125) and of
`AdvancedLayoutDetector.detect_diagrams` (lines 109-127): fold `keepStep`
over the sorted candidate list, starting from an empty kept list. -/
def suppressOverlaps (l : List Candidate) : List Candidate :=
  l.foldl keepStep []

/-- Sort key of `detect_diagrams_hybrid` line 105:
`sorted(diagrams, key=lambda x: x['area'], reverse=True)` —
descending by area, stable. -/
def areaGe (a b : Candidate) : Prop := carea b ≤ carea a

instance : DecidableRel areaGe := fun a b =>
  inferInstanceAs (Decidable (carea b ≤ carea a))

instance : IsTotal Candidate areaGe :=
  ⟨fun a b => (le_total (carea a) (carea b)).symm⟩

instance : IsTrans Candidate areaGe :=
  ⟨fun _ _ _ h1 h2 => le_trans h2 h1⟩

/-- Sort key of `AdvancedLayoutDetector.detect_diagrams` line 110:
`sorted(diagrams, key=lambda x: x['confidence'], reverse=True)` —
descending by confidence, stable, no secondary key. -/
def confGe (a b : Candidate) : Prop := b.confidence ≤ a.confidence

instance : DecidableRel confGe := fun a b =>
  inferInstanceAs (Decidable (b.confidence ≤ a.confidence))

instance : IsTotal Candidate confGe :=
  ⟨fun a b => (le_total a.confidence b.confidence).symm⟩

instance : IsTrans Candidate confGe :=
  ⟨fun _ _ _ h1 h2 => le_trans h2 h1⟩

/-- Python's `sorted` is a stable sort; a stable sort is extensionally
determined by its (total, transitive) comparison, so insertion sort with the
same comparison is the same function. -/
def sortAreaDesc (l : List Candidate) : List Candidate :=
  List.insertionSort areaGe l

/-- Stable descending-by-confidence sort of the layout detector. -/
def sortConfDesc (l : List Candidate) : List Candidate :=
  List.insertionSort confGe l

/-- Overlap resolution as `detect_diagrams_hybrid` performs it:
sort descending by area, then run the suppression loop. -/
def hybridResolve (l : List Candidate) : List Candidate :=
  suppressOverlaps (sortAreaDesc l)

/-- Overlap resolution as `AdvancedLayoutDetector.detect_diagrams` performs
it: sort descending by confidence, then run the suppression loop. -/
def layoutResolve (l : List Candidate) : List Candidate :=
  suppressOverlaps (sortConfDesc l)

/-! Spec-side definitions for the overlap resolver, for comparison with the
source-derived ones. -/

/-- Modelled from the spec (§4.5 Overlap Resolver): sort descending by
confidence, breaking ties by area descending.  (The source never uses this
order: the hybrid detector sorts by area only, the layout detector by
confidence only.) -/
def confThenAreaGe (a b : Candidate) : Prop :=
  b.confidence < a.confidence ∨ (a.confidence = b.confidence ∧ carea b ≤ carea a)

instance : DecidableRel confThenAreaGe := fun a b =>
  inferInstanceAs (Decidable (b.confidence < a.confidence ∨
    (a.confidence = b.confidence ∧ carea b ≤ carea a)))

/-- Modelled from the spec (§4.5 Overlap Resolver): greedily keep a
candidate when its bbox intersection with every already-kept candidate is at
most 50% of its own area; written by structural recursion emitting kept
candidates front to back, so order preservation is by construction. -/
def specGreedy (kept : List Candidate) : List Candidate → List Candidate
  | [] => []
  | c :: rest =>
    if kept.all fun e => decide (2 * interArea c e ≤ carea c) then
      c :: specGreedy (kept ++ [c]) rest
    else
      specGreedy kept rest

/-- Modelled from the spec (§4.5 Overlap Resolver, the whole contract the
claim states): sort descending by confidence with ties by area descending,
then greedily filter. -/
def overlapResolverSpec (l : List Candidate) : List Candidate :=
  specGreedy [] (List.insertionSort confThenAreaGe l)

/-! Helper lemmas about the suppression loop. -/

theorem interArea_comm (a b : Candidate) : interArea a b = interArea b a := by
  unfold interArea
  rw [min_comm a.x2 b.x2, max_comm a.x1 b.x1, min_comm a.y2 b.y2,
    max_comm a.y1 b.y1]

/-- The fold underlying `suppressOverlaps` is `specGreedy` appended to the
accumulator: the refinement between the source loop and the spec wording. -/
theorem foldl_keepStep_eq_specGreedy (l acc : List Candidate) :
    l.foldl keepStep acc = acc ++ specGreedy acc l := by
  induction l generalizing acc with
  | nil => simp [specGreedy]
  | cons c rest ih =>
    by_cases h : ∀ e ∈ acc, 2 * interArea c e ≤ carea c
    · have hall : (acc.all fun e => decide (2 * interArea c e ≤ carea c)) = true := by
        simpa [List.all_eq_true] using h
      have hany : (acc.any fun e => decide (overHalf c e)) = false := by
        simp only [List.any_eq_false, decide_eq_true_eq]
        intro e he
        exact not_lt.mpr (h e he)
      simp only [List.foldl_cons, keepStep, hany, Bool.false_eq_true,
        if_false, specGreedy, hall, if_true, ih]
      simp
    · have hall : (acc.all fun e => decide (2 * interArea c e ≤ carea c)) = false := by
        simp only [List.all_eq_false, decide_eq_true_eq, not_le]
        push_neg at h
        obtain ⟨e, he, hlt⟩ := h
        exact ⟨e, he, hlt⟩
      have hany : (acc.any fun e => decide (overHalf c e)) = true := by
        push_neg at h
        obtain ⟨e, he, hlt⟩ := h
        simp only [List.any_eq_true, decide_eq_true_eq]
        exact ⟨e, he, hlt⟩
      simp only [List.foldl_cons, keepStep, hany, if_true, specGreedy, hall,
        Bool.false_eq_true, if_false, ih]

/-- The spec-side greedy filter emits a sublist of its input: the output
preserves the order of the (sorted) input list. -/
theorem specGreedy_sublist (l kept : List Candidate) :
    (specGreedy kept l).Sublist l := by
  induction l generalizing kept with
  | nil => simp [specGreedy]
  | cons c rest ih =>
    unfold specGreedy
    by_cases h : (kept.all fun e => decide (2 * interArea c e ≤ carea c)) = true
    · simp only [h, if_true]
      exact (ih (kept ++ [c])).cons₂ c
    · simp only [h, if_false]
      exact (ih kept).cons c

/-- Invariant the suppression loop maintains with no assumption on the
order of its input: every kept candidate intersects every earlier-kept
candidate by at most half of its own (the later one's) area. -/
theorem suppress_pairwise_own (l acc : List Candidate)
    (hacc : acc.Pairwise fun a b => 2 * interArea a b ≤ carea b) :
    (l.foldl keepStep acc).Pairwise fun a b => 2 * interArea a b ≤ carea b := by
  induction l generalizing acc with
  | nil => simpa using hacc
  | cons c rest ih =>
    simp only [List.foldl_cons]
    unfold keepStep
    by_cases hany : (acc.any fun e => decide (overHalf c e)) = true
    · simp only [hany, if_true]
      exact ih acc hacc
    · simp only [hany, if_false]
      refine ih (acc ++ [c]) ?_
      rw [List.pairwise_append]
      refine ⟨hacc, List.pairwise_singleton _ _, ?_⟩
      intro a ha b hb
      simp only [List.mem_singleton] at hb
      rw [hb]
      have hne : ∀ e ∈ acc, ¬ overHalf c e := by
        simpa [List.any_eq_true] using hany
      have := hne a ha
      unfold overHalf at this
      rw [interArea_comm a c]
      omega

/-- Invariant the suppression loop maintains when its input is sorted
descending by area and every already-kept candidate dominates the rest of
the input in area: every kept pair intersects by at most half of the
smaller area. -/
theorem suppress_pairwise_min (l acc : List Candidate)
    (hacc : acc.Pairwise fun a b => 2 * interArea a b ≤ min (carea a) (carea b))
    (hsorted : l.Pairwise areaGe)
    (hdom : ∀ a ∈ acc, ∀ c ∈ l, carea c ≤ carea a) :
    (l.foldl keepStep acc).Pairwise fun a b =>
      2 * interArea a b ≤ min (carea a) (carea b) := by
  induction l generalizing acc with
  | nil => simpa using hacc
  | cons c rest ih =>
    rw [List.pairwise_cons] at hsorted
    obtain ⟨hhead, hrest⟩ := hsorted
    simp only [List.foldl_cons]
    unfold keepStep
    by_cases hany : (acc.any fun e => decide (overHalf c e)) = true
    · simp only [hany, if_true]
      exact ih acc hacc hrest fun a ha d hd => hdom a ha d (List.mem_cons_of_mem c hd)
    · simp only [hany, if_false]
      have hne : ∀ e ∈ acc, ¬ overHalf c e := by
        simpa [List.any_eq_true] using hany
      refine ih (acc ++ [c]) ?_ hrest ?_
      · rw [List.pairwise_append]
        refine ⟨hacc, List.pairwise_singleton _ _, ?_⟩
        intro a ha b hb
        simp only [List.mem_singleton] at hb
        rw [hb]
        have h1 := hne a ha
        unfold overHalf at h1
        have h2 : carea c ≤ carea a := hdom a ha c (List.mem_cons_self c rest)
        rw [interArea_comm a c]
        refine le_min ?_ ?_ <;> omega
      · intro a ha d hd
        rcases List.mem_append.mp ha with ha1 | ha2
        · exact hdom a ha1 d (List.mem_cons_of_mem c hd)
        · simp only [List.mem_singleton] at ha2
          subst ha2
          exact hhead d hd

/-- C1 (corrected), counterexample: in the layout detector's resolver a
small high-confidence candidate is kept first and a large low-confidence
candidate fully containing it is kept afterwards; their intersection is the
whole smaller box, which exceeds 50% of the minimum of the two areas. -/
theorem layout_resolver_min_bound_fails :
    layoutResolve [⟨0, 0, 100, 100, 90⟩, ⟨0, 0, 200, 200, 80⟩] =
      [⟨0, 0, 100, 100, 90⟩, ⟨0, 0, 200, 200, 80⟩] ∧
    2 * interArea ⟨0, 0, 100, 100, 90⟩ ⟨0, 0, 200, 200, 80⟩ >
      min (carea ⟨0, 0, 100, 100, 90⟩) (carea ⟨0, 0, 200, 200, 80⟩) := by
  decide

/-- C1 (amended): in both detectors, any two kept candidates A (kept
earlier) and B (kept later) satisfy `intersectionArea(A,B) ≤ 0.5 * area(B)`;
in the hybrid detector, which processes candidates in descending area
order, the intersection is additionally at most `0.5 * min(area A, area B)`.
(In the layout detector the min-based bound fails, see the counterexample.) -/
theorem overlap_resolver_kept_pairwise (l : List Candidate) :
    ((layoutResolve l).Pairwise fun a b => 2 * interArea a b ≤ carea b) ∧
    ((hybridResolve l).Pairwise fun a b =>
      2 * interArea a b ≤ min (carea a) (carea b)) := by
  constructor
  · exact suppress_pairwise_own _ [] (List.Pairwise.nil)
  · refine suppress_pairwise_min _ [] (List.Pairwise.nil) ?_ (by simp)
    exact List.sorted_insertionSort areaGe l

/-- C2 (corrected), counterexample: on two disjoint candidates where the
confidence order and the area order disagree, the hybrid detector's
resolver (sort by area descending) returns the opposite order from the
spec's resolver (sort by confidence descending, ties by area). -/
theorem hybrid_resolver_order_differs_from_spec :
    hybridResolve [⟨0, 0, 10, 10, 90⟩, ⟨1000, 0, 1020, 10, 50⟩] =
      [⟨1000, 0, 1020, 10, 50⟩, ⟨0, 0, 10, 10, 90⟩] ∧
    overlapResolverSpec [⟨0, 0, 10, 10, 90⟩, ⟨1000, 0, 1020, 10, 50⟩] =
      [⟨0, 0, 10, 10, 90⟩, ⟨1000, 0, 1020, 10, 50⟩] ∧
    hybridResolve [⟨0, 0, 10, 10, 90⟩, ⟨1000, 0, 1020, 10, 50⟩] ≠
      overlapResolverSpec [⟨0, 0, 10, 10, 90⟩, ⟨1000, 0, 1020, 10, 50⟩] := by
  refine ⟨by decide, by decide, by decide⟩

/-- C2 (amended): the hybrid detector's resolver stable-sorts descending by
area, the layout detector's stable-sorts descending by confidence (ties in
input order, no area tie-break); each then greedily keeps a candidate
unless its bbox intersection with an already-kept candidate exceeds 50% of
its own area (rectangle clamp, zero if disjoint); the output preserves the
sorted order of the kept candidates (it is a sublist of the sorted list). -/
theorem overlap_resolver_code_behavior (l : List Candidate) :
    hybridResolve l = specGreedy [] (sortAreaDesc l) ∧
    layoutResolve l = specGreedy [] (sortConfDesc l) ∧
    (hybridResolve l).Sublist (sortAreaDesc l) ∧
    (layoutResolve l).Sublist (sortConfDesc l) := by
  have h1 : hybridResolve l = specGreedy [] (sortAreaDesc l) := by
    unfold hybridResolve suppressOverlaps
    rw [foldl_keepStep_eq_specGreedy]
    simp
  have h2 : layoutResolve l = specGreedy [] (sortConfDesc l) := by
    unfold layoutResolve suppressOverlaps
    rw [foldl_keepStep_eq_specGreedy]
    simp
  refine ⟨h1, h2, ?_, ?_⟩
  · rw [h1]; exact specGreedy_sublist _ _
  · rw [h2]; exact specGreedy_sublist _ _

/-! ### `PDFProcessor.detect_regions`: contour classification and Hough fallback

Inputs of the embedded function are the per-contour measurements the opencv
calls produce (bounding rectangle, `cv2.contourArea`, edge-pixel count
inside the box) and the outcome of the `cv2.HoughLinesP` call (`none` when
the call returns `None`). -/

structure ContourMeas where
  x : ℕ
  y : ℕ
  w : ℕ
  h : ℕ
  contourArea : ℚ
  edgePixels : ℕ
deriving DecidableEq, Repr

inductive RegionClass
  | text
  | diagram
  | mixed
deriving DecidableEq, Repr

/-- `area = w * h` (detect_regions line 168). -/
def cmArea (c : ContourMeas) : ℕ := c.w * c.h

/-- `aspect_ratio = w / h if h > 0 else 0` (line 169). -/
def cmAspect (c : ContourMeas) : ℚ := if 0 < c.h then (c.w : ℚ) / c.h else 0

/-- `edge_density = edge_pixels / float(w * h) if w * h > 0 else 0`
(line 173). -/
def cmDensity (c : ContourMeas) : ℚ :=
  if 0 < c.w * c.h then (c.edgePixels : ℚ) / (c.w * c.h : ℕ) else 0

/-- The classification of one contour in `detect_regions` (lines 176-200):
discard below the noise floor, then diagram / text / mixed in order,
first match wins.  `none` models `continue` (discarded). -/
def classifyContour (c : ContourMeas) : Option RegionClass :=
  if cmArea c < 2000 then none
  else if 10000 < cmArea c ∧ (0.2 : ℚ) < cmAspect c ∧ cmAspect c < (4.0 : ℚ) ∧
      (0.005 : ℚ) < cmDensity c ∧ c.contourArea / (cmArea c : ℚ) < (0.95 : ℚ) then
    some RegionClass.diagram
  else if (3.0 : ℚ) < cmAspect c then some RegionClass.text
  else some RegionClass.mixed

/-- The `region_info` record appended to one of the three lists
(lines 180-184). -/
structure RegionInfo where
  x : ℤ
  y : ℤ
  w : ℤ
  h : ℤ
  area : ℤ
  aspectRatio : ℚ
  detectedVia : Option String
deriving DecidableEq, Repr

def mkRegionInfo (c : ContourMeas) : RegionInfo :=
  ⟨(c.x : ℤ), (c.y : ℤ), (c.w : ℤ), (c.h : ℤ), (cmArea c : ℤ), cmAspect c, none⟩

structure PageRegions where
  textBlocks : List RegionInfo
  diagramBlocks : List RegionInfo
  mixedBlocks : List RegionInfo
deriving DecidableEq, Repr

/-- The classification pass over all contours: the single loop of the
source appends each region to the list of its class, so each class list is
the in-order projection of the contours of that class. -/
def classifyPass (contours : List ContourMeas) : PageRegions where
  textBlocks := contours.filterMap fun c =>
    if classifyContour c = some RegionClass.text then some (mkRegionInfo c) else none
  diagramBlocks := contours.filterMap fun c =>
    if classifyContour c = some RegionClass.diagram then some (mkRegionInfo c) else none
  mixedBlocks := contours.filterMap fun c =>
    if classifyContour c = some RegionClass.mixed then some (mkRegionInfo c) else none

/-- A probabilistic Hough line segment `(x1, y1, x2, y2)`. -/
structure Line4 where
  x1 : ℕ
  y1 : ℕ
  x2 : ℕ
  y2 : ℕ
deriving DecidableEq, Repr

/-- Parameters of the `cv2.HoughLinesP` call in `detect_regions`
(lines 204-211): `threshold=80, minLineLength=80, maxLineGap=30`. -/
def houghParams : ℤ × ℤ × ℤ := (80, 80, 30)

def listMinZ : List ℤ → ℤ
  | [] => 0
  | a :: r => r.foldl min a

def listMaxZ : List ℤ → ℤ
  | [] => 0
  | a :: r => r.foldl max a

def lineXs (lines : List Line4) : List ℤ :=
  lines.flatMap fun l => [(l.x1 : ℤ), (l.x2 : ℤ)]

def lineYs (lines : List Line4) : List ℤ :=
  lines.flatMap fun l => [(l.y1 : ℤ), (l.y2 : ℤ)]

/-- The collective bounding envelope of the Hough lines, padded by 40px and
clamped to the image bounds, accepted when `area > 8000 and w > 100 and
h > 100` (lines 213-229). -/
def houghEnvelope (W H : ℕ) (lines : List Line4) : Option RegionInfo :=
  let minX := max (listMinZ (lineXs lines) - 40) 0
  let maxX := min (listMaxZ (lineXs lines) + 40) (W : ℤ)
  let minY := max (listMinZ (lineYs lines) - 40) 0
  let maxY := min (listMaxZ (lineYs lines) + 40) (H : ℤ)
  let w := maxX - minX
  let h := maxY - minY
  let area := w * h
  if 8000 < area ∧ 100 < w ∧ 100 < h then
    some ⟨minX, minY, w, h, area, if 0 < h then (w : ℚ) / (h : ℚ) else 0, some "hough"⟩
  else none

/-- `PDFProcessor.detect_regions` (lines 130-235): the classification pass,
then — only when it produced zero diagram blocks — the Hough fallback,
which the source gates by `lines is not None and len(lines) > 5`. -/
def detectRegions (W H : ℕ) (contours : List ContourMeas)
    (hough : Option (List Line4)) : PageRegions :=
  let base := classifyPass contours
  if base.diagramBlocks.isEmpty then
    match hough with
    | none => base
    | some lines =>
      if 5 < lines.length then
        match houghEnvelope W H lines with
        | some r => { base with diagramBlocks := base.diagramBlocks ++ [r] }
        | none => base
      else base
  else base

/-- Modelled from the spec: `if ≥5 lines returned, compute their collective
bounding envelope ...` — the fallback gate as the spec (and the source's
own comment `# Need at least 5 lines for a diagram`) states it, i.e. with
`len(lines) >= 5` instead of the source's `len(lines) > 5`. -/
def houghFallbackSpec (W H : ℕ) (lines : List Line4) : Option RegionInfo :=
  if 5 ≤ lines.length then houghEnvelope W H lines else none

/-- C5: the contour classification is first-match-wins on
(area, aspectRatio, edgeDensity, contourArea/area): discarded iff
`area < 2000`; diagram iff `area > 10000` and `0.2 < aspectRatio < 4.0` and
`edgeDensity > 0.005` and `contourArea/area < 0.95`; otherwise text iff
`aspectRatio > 3.0`; otherwise mixed. -/
theorem contour_classification_policy (c : ContourMeas) :
    (classifyContour c = none ↔ cmArea c < 2000) ∧
    (classifyContour c = some RegionClass.diagram ↔
      10000 < cmArea c ∧ (0.2 : ℚ) < cmAspect c ∧ cmAspect c < (4.0 : ℚ) ∧
      (0.005 : ℚ) < cmDensity c ∧ c.contourArea / (cmArea c : ℚ) < (0.95 : ℚ)) ∧
    (classifyContour c = some RegionClass.text ↔
      ¬ cmArea c < 2000 ∧
      ¬ (10000 < cmArea c ∧ (0.2 : ℚ) < cmAspect c ∧ cmAspect c < (4.0 : ℚ) ∧
        (0.005 : ℚ) < cmDensity c ∧ c.contourArea / (cmArea c : ℚ) < (0.95 : ℚ)) ∧
      (3.0 : ℚ) < cmAspect c) ∧
    (classifyContour c = some RegionClass.mixed ↔
      ¬ cmArea c < 2000 ∧
      ¬ (10000 < cmArea c ∧ (0.2 : ℚ) < cmAspect c ∧ cmAspect c < (4.0 : ℚ) ∧
        (0.005 : ℚ) < cmDensity c ∧ c.contourArea / (cmArea c : ℚ) < (0.95 : ℚ)) ∧
      ¬ (3.0 : ℚ) < cmAspect c) := by
  unfold classifyContour
  split_ifs with h1 h2 h3 <;>
    refine ⟨?_, ?_, ?_, ?_⟩ <;> simp_all <;> omega

/-- Exactly five parallel Hough lines spanning x in 100..900, y in 100..900
on a 2000x2000 page: their padded envelope is 880x880 = 774400 px, passing
every acceptance test of the fallback. -/
def houghFiveLines : List Line4 :=
  [⟨100, 100, 900, 100⟩, ⟨100, 300, 900, 300⟩, ⟨100, 500, 900, 500⟩,
   ⟨100, 700, 900, 700⟩, ⟨100, 900, 900, 900⟩]

/-- C6 (code bug): with exactly 5 Hough lines the source's gate
`len(lines) > 5` skips the fallback and `detect_regions` returns zero
diagram blocks, although the envelope of those 5 lines passes every
acceptance test — the spec's gate (and the source's own comment
`# Need at least 5 lines for a diagram`) accepts it; with a sixth line the
same envelope is accepted. -/
theorem hough_five_lines_skipped :
    detectRegions 2000 2000 [] (some houghFiveLines) = ⟨[], [], []⟩ ∧
    houghFallbackSpec 2000 2000 houghFiveLines =
      some ⟨60, 60, 880, 880, 774400, 1, some "hough"⟩ ∧
    (detectRegions 2000 2000 []
        (some (⟨100, 100, 900, 100⟩ :: houghFiveLines))).diagramBlocks =
      [⟨60, 60, 880, 880, 774400, 1, some "hough"⟩] := by
  have henv : houghEnvelope 2000 2000 (⟨100, 100, 900, 100⟩ :: houghFiveLines) =
      some ⟨60, 60, 880, 880, 774400, 1, some "hough"⟩ := by
    norm_num [houghEnvelope, lineXs, lineYs, listMinZ, listMaxZ, houghFiveLines,
      List.foldl]
  refine ⟨by decide, ?_, ?_⟩
  · have h5 : houghEnvelope 2000 2000 houghFiveLines =
        some ⟨60, 60, 880, 880, 774400, 1, some "hough"⟩ := by
      norm_num [houghEnvelope, lineXs, lineYs, listMinZ, listMaxZ, houghFiveLines,
        List.foldl]
    simpa [houghFallbackSpec, houghFiveLines] using h5
  · simp only [detectRegions, classifyPass, List.filterMap_nil, List.isEmpty_nil,
      if_true]
    have hlen : 5 < (⟨100, 100, 900, 100⟩ :: houghFiveLines : List Line4).length := by
      simp [houghFiveLines]
    rw [if_pos hlen, henv]
    simp

/-- C10: the Hough fallback only ever appends at most one region to the
diagram list and never touches the text or mixed lists; when the
classification pass yields zero diagram regions the returned diagram list
has length 0 or 1. -/
theorem hough_fallback_frame (W H : ℕ) (contours : List ContourMeas)
    (hough : Option (List Line4)) :
    (detectRegions W H contours hough).textBlocks =
      (classifyPass contours).textBlocks ∧
    (detectRegions W H contours hough).mixedBlocks =
      (classifyPass contours).mixedBlocks ∧
    ((classifyPass contours).diagramBlocks = [] →
      (detectRegions W H contours hough).diagramBlocks.length ≤ 1) := by
  simp only [detectRegions]
  split
  · split
    · exact ⟨rfl, rfl, fun hnil => by simp [hnil]⟩
    · split
      · split
        · exact ⟨rfl, rfl, fun hnil => by simp [hnil]⟩
        · exact ⟨rfl, rfl, fun hnil => by simp [hnil]⟩
      · exact ⟨rfl, rfl, fun hnil => by simp [hnil]⟩
  · exact ⟨rfl, rfl, fun hnil => by simp [hnil]⟩

/-- Witness for C10 at a concrete page: empty contour list, no Hough lines
returned. -/
theorem hough_fallback_frame_witness :
    (classifyPass ([] : List ContourMeas)).diagramBlocks = [] ∧
    (detectRegions 100 100 [] none).diagramBlocks.length ≤ 1 := by
  have h := hough_fallback_frame 100 100 [] none
  exact ⟨by decide, h.2.2 (by decide)⟩

/-! ### The per-question cascade of `enriched_batch_process_pdf`

The embedded inputs of one question's cascade are: the page snapshot
dimensions and existence; the question/part texts and the enrichment flags
(for the need check, lines 124-139); the value returned by
`detect_diagrams_hybrid` (`none` when that tier raised); the value returned
by `detect_diagrams_yolo` (`none` when that tier raised, in which case the
source globs previously written diagram files); the enrichment's
`diagram_bbox`; and the outcome of the Gemini localization call of the
final block. -/

/-- Python `str.lower()` (ASCII-relevant part). -/
def lowerStr (s : String) : String := ⟨s.data.map Char.toLower⟩

/-- Python's substring test `needle in hay`: contiguous infix of the
character sequence. -/
def strContains (hay needle : String) : Bool := decide (needle.data <:+: hay.data)

/-- The keyword list of line 132. -/
def diagramKeywords : List String :=
  ["diagram", "figure", "graph", "chart", "plot", "sketch", "grid", "map",
   "shape", "triangle", "circle", "polygon", "quadrilateral", "coordinate",
   "dot diagram"]

/-- The need-a-diagram check (lines 124-139): any keyword occurring as a
substring of the lowercased concatenation `question_text + ' ' + parts_text`,
or `question_type == 'diagram_based'`, or `requires_diagram is True`. -/
def needsDiagram (questionText partsText : String) (questionType : Option String)
    (requiresDiagram : Bool) : Bool :=
  let textContent := lowerStr (questionText ++ " " ++ partsText)
  (diagramKeywords.any fun k => strContains textContent k) ||
    questionType == some "diagram_based" || requiresDiagram

/-- Substring containment is monotone: if the model text contains the longer
word, it contains any keyword embedded in that word. -/
theorem strContains_mono (t n1 n2 : String) (hsub : n2.data <:+: n1.data)
    (h : strContains t n1 = true) : strContains t n2 = true := by
  unfold strContains at h ⊢
  exact decide_eq_true (hsub.trans (of_decide_eq_true h))

/-- C9: the need check is substring-based: a question whose text contains
`photograph` (which embeds the keyword `graph`) or `mapping` (which embeds
the keyword `map`) sets the need flag, whatever the other inputs are. -/
theorem keyword_check_is_substring_based (qt pt : String) (q : Option String)
    (rd : Bool)
    (h : strContains (lowerStr (qt ++ " " ++ pt)) "photograph" = true ∨
      strContains (lowerStr (qt ++ " " ++ pt)) "mapping" = true) :
    needsDiagram qt pt q rd = true := by
  unfold needsDiagram
  simp only [Bool.or_eq_true, List.any_eq_true]
  refine Or.inl (Or.inl ?_)
  rcases h with hp | hm
  · exact ⟨"graph", by simp [diagramKeywords],
      strContains_mono _ _ _ (by decide) hp⟩
  · exact ⟨"map", by simp [diagramKeywords],
      strContains_mono _ _ _ (by decide) hm⟩

/-- Witness for C9: a question text with no diagram-related word on its own
still triggers detection through the substring `graph` of `photograph`. -/
theorem keyword_check_witness :
    needsDiagram "Describe the features shown in the photograph" "" none false =
      true :=
  keyword_check_is_substring_based _ _ _ _ (Or.inl (by decide))

/-- A bounding box in `{x, y, width, height}` form, as the enrichment's
`diagram_bbox` and the localization response carry it. -/
structure BboxWH where
  x : ℤ
  y : ℤ
  w : ℤ
  h : ℤ
deriving DecidableEq, Repr

/-- Outcome of the Gemini localization call of the final block
(lines 277-390): the call raised; it answered without a usable bbox
(`{"bbox": null, ...}`); or it returned a bbox with a confidence. -/
inductive LocateOutcome
  | fails
  | notFound
  | found (b : BboxWH) (conf : ℚ)
deriving DecidableEq, Repr

/-- One diagram record appended to the question's `diagrams` list.  Only
the fields the claims are about are kept: the `source` tag and
`confidence` value stored in the dict (absent on the glob fallback and on
`gemini_bbox` records, hence `Option`), and the crop rectangle
`(left, top, right, bottom)` passed to `Image.crop` for the persisted
artifact (absent on glob records, which reference already-existing files). -/
structure DiagRecord where
  source : Option String
  confidence : Option ℚ
  cropBox : Option (ℤ × ℤ × ℤ × ℤ)
deriving DecidableEq, Repr

structure CascadeInput where
  W : ℕ
  H : ℕ
  questionText : String
  partsText : String
  questionType : Option String
  requiresDiagram : Bool
  snapshotExists : Bool
  hybridOut : Option (List Candidate)
  yoloOut : Option (List Candidate)
  globFiles : List String
  enrichBbox : Option BboxWH
  enrichBboxFails : Bool
  locate : LocateOutcome

/-- The crop rectangle of tiers 1 and 2: bbox padded by 40px, clamped to
the page (lines 156-161 and 199-204). -/
def clamp40 (W H : ℕ) (c : Candidate) : ℤ × ℤ × ℤ × ℤ :=
  (max 0 (c.x1 - 40), max 0 (c.y1 - 40), min (W : ℤ) (c.x2 + 40),
    min (H : ℤ) (c.y2 + 40))

/-- The crop rectangle built from a `{x, y, width, height}` bbox with 50px
padding (lines 250-257 and 321-329): `x = max(0, x-50)`, `y = max(0, y-50)`,
`w = min(width - x, w + 100)`, `h = min(height - y, h + 100)`, crop
`(x, y, x+w, y+h)`. -/
def clamp50 (W H : ℕ) (b : BboxWH) : ℤ × ℤ × ℤ × ℤ :=
  let x := max 0 (b.x - 50)
  let y := max 0 (b.y - 50)
  let w := min ((W : ℤ) - x) (b.w + 100)
  let h := min ((H : ℤ) - y) (b.h + 100)
  (x, y, x + w, y + h)

/-- Tier 1's selection from the hybrid detector's return value: keep the
detections with `confidence > 85`, capped at 3 (lines 153-155). -/
def codeTier1 (hybridOutput : List Candidate) : List Candidate :=
  (hybridOutput.filter fun c => decide (85 < c.confidence)).take 3

/-- What Tier 1 keeps for the question; an exception in the tier keeps
nothing. -/
def tier1Kept (i : CascadeInput) : List Candidate :=
  match i.hybridOut with
  | none => []
  | some l => codeTier1 l

def tier1Records (i : CascadeInput) : List DiagRecord :=
  (tier1Kept i).map fun c =>
    ⟨some "hybrid_ai_detection", some c.confidence, some (clamp40 i.W i.H c)⟩

/-- Tier 2 takes the first 3 yolo detections with no confidence filter
(line 198); on an exception it globs previously written diagram files,
whose records carry neither source nor confidence (lines 228-235). -/
def tier2Records (i : CascadeInput) : List DiagRecord :=
  match i.yoloOut with
  | some l => (l.take 3).map fun c =>
      ⟨some "yolov8_detection", some c.confidence, some (clamp40 i.W i.H c)⟩
  | none => i.globFiles.map fun _ => ⟨none, none, none⟩

/-- The enrichment `diagram_bbox` tier (lines 237-271): runs when the
enrichment supplied a bbox, the snapshot exists and the crop does not
raise; its record has source `gemini_bbox` and stores no confidence. -/
def enrichContribution (i : CascadeInput) : List DiagRecord :=
  match i.enrichBbox with
  | none => []
  | some b =>
    if i.snapshotExists && !i.enrichBboxFails then
      [⟨some "gemini_bbox", none, some (clamp50 i.W i.H b)⟩]
    else []

/-- The record of the last-resort crop (lines 347-366 and 368-390): the
vertical band `(0, int(H*0.25), W, int(H*0.25) + int(H*0.5))`, confidence
`70.0`, source `fallback_heuristic`. -/
def fallbackRecord (W H : ℕ) : DiagRecord :=
  ⟨some "fallback_heuristic", some 70,
    some (0, ((H / 4 : ℕ) : ℤ), (W : ℤ), ((H / 4 + H / 2 : ℕ) : ℤ))⟩

/-- The final block (lines 277-390): with the snapshot present, a located
bbox yields a `gemini_intelligent_fallback` record with the model's
confidence; a no-bbox answer or an exception yields the heuristic crop. -/
def finalContribution (i : CascadeInput) : List DiagRecord :=
  if i.snapshotExists then
    match i.locate with
    | LocateOutcome.found b conf =>
        [⟨some "gemini_intelligent_fallback", some conf, some (clamp50 i.W i.H b)⟩]
    | LocateOutcome.notFound => [fallbackRecord i.W i.H]
    | LocateOutcome.fails => [fallbackRecord i.W i.H]
  else []

def needsOf (i : CascadeInput) : Bool :=
  needsDiagram i.questionText i.partsText i.questionType i.requiresDiagram

/-- Lines 141-185: tiers 1-2 run only under
`if needs_diagram and page_snapshot.exists():`. -/
def stage1 (i : CascadeInput) : List DiagRecord :=
  if needsOf i && i.snapshotExists then tier1Records i else []

/-- Line 188: `if not diagrams and needs_diagram:` inside the same guard. -/
def stage2 (i : CascadeInput) : List DiagRecord :=
  if needsOf i && i.snapshotExists && (stage1 i).isEmpty then
    stage1 i ++ tier2Records i
  else stage1 i

/-- Line 239: `if diagram_bbox and not diagrams:`. -/
def stage3 (i : CascadeInput) : List DiagRecord :=
  if (stage2 i).isEmpty then stage2 i ++ enrichContribution i else stage2 i

/-- Line 277: `if needs_diagram and not diagrams:` then the final block;
the resulting `diagrams` list of the question. -/
def cascadeDiagrams (i : CascadeInput) : List DiagRecord :=
  if needsOf i && (stage3 i).isEmpty then stage3 i ++ finalContribution i
  else stage3 i

/-- `detect_diagrams_hybrid` as a whole (lines 50-134): the contour/density
candidates and the grid candidates are concatenated (line 102) and
overlap-resolved by area order.  The pixel-level construction of the two
candidate lists is the opaque part; their combination is the function. -/
def hybridDetect (contourCands gridCands : List Candidate) : List Candidate :=
  hybridResolve (contourCands ++ gridCands)

/-- `AdvancedLayoutDetector.detect_diagrams` as a whole (lines 39-135): the
morphological candidates and the optional blob-envelope candidate are
concatenated and overlap-resolved by confidence order. -/
def advancedLayoutDetect (morphCands : List Candidate)
    (blobCand : Option Candidate) : List Candidate :=
  layoutResolve (morphCands ++ blobCand.toList)

/-- Modelled from the spec (§4.6 State TIER1, composed with the §2 dataflow
and the §4.5 resolver): run the contour-density (4.2), grid (4.3) and
blob/morphology (4.4) detections combined, resolve overlaps, keep only
candidates with confidence > 85, cap at 3. -/
def specTier1 (contourCands gridCands morphCands blobCands : List Candidate) :
    List Candidate :=
  ((overlapResolverSpec
      (contourCands ++ gridCands ++ morphCands ++ blobCands)).filter
    fun c => decide (85 < c.confidence)).take 3

/-- C3 (corrected), counterexample: a page state where the blob/morphology
detection (§4.4) finds one confidence-95 candidate and the contour/grid
detections find nothing.  The claim's Tier 1 (4.2+4.3+4.4 combined) keeps
that candidate, but the code's Tier 1 runs only `detect_diagrams_hybrid`
(contour + grid) and keeps nothing; the candidate instead surfaces in
Tier 2 with source `yolov8_detection`. -/
theorem tier1_composition_counterexample :
    specTier1 [] [] [⟨0, 0, 300, 300, 95⟩] [] = [⟨0, 0, 300, 300, 95⟩] ∧
    hybridDetect [] [] = [] ∧
    codeTier1 (hybridDetect [] []) = [] ∧
    advancedLayoutDetect [⟨0, 0, 300, 300, 95⟩] none = [⟨0, 0, 300, 300, 95⟩] ∧
    (cascadeDiagrams
        ⟨1000, 800, "Sketch the graph", "", none, false, true,
          some (hybridDetect [] []),
          some (advancedLayoutDetect [⟨0, 0, 300, 300, 95⟩] none), [], none,
          false, LocateOutcome.notFound⟩).map DiagRecord.source =
      [some "yolov8_detection"] := by
  refine ⟨by decide, by decide, by decide, by decide, by decide⟩

/-- C4: for a question needing a diagram whose page snapshot exists, when
Tier 1 keeps nothing, Tier 2 contributes nothing, the enrichment-bbox step
contributes nothing and the localization call finds no bbox (or raises),
the cascade produces exactly one record: the vertical band from
`int(H*0.25)` to `int(H*0.25) + int(H*0.5)` of the page at full width,
confidence 70.0, source `fallback_heuristic`. -/
theorem tier4_heuristic_crop (i : CascadeInput)
    (hneed : needsOf i = true)
    (hsnap : i.snapshotExists = true)
    (h1 : tier1Kept i = [])
    (h2 : tier2Records i = [])
    (h3 : enrichContribution i = [])
    (h4 : i.locate = LocateOutcome.notFound ∨ i.locate = LocateOutcome.fails) :
    cascadeDiagrams i =
      [⟨some "fallback_heuristic", some 70,
        some (0, ((i.H / 4 : ℕ) : ℤ), (i.W : ℤ),
          ((i.H / 4 + i.H / 2 : ℕ) : ℤ))⟩] := by
  have hrec : tier1Records i = [] := by
    unfold tier1Records
    rw [h1]
    rfl
  have hs1 : stage1 i = [] := by
    unfold stage1
    rw [hrec]
    simp
  have hs2 : stage2 i = [] := by
    unfold stage2
    rw [hs1, h2]
    simp
  have hs3 : stage3 i = [] := by
    unfold stage3
    rw [hs2, h3]
    simp
  unfold cascadeDiagrams
  rw [hs3]
  simp only [hneed, List.isEmpty_nil, Bool.and_true, Bool.and_self, if_true,
    List.nil_append]
  unfold finalContribution
  rw [hsnap]
  rcases h4 with h | h <;> rw [h] <;> rfl

/-- Witness for C4 on a 1000x800 page: all earlier tiers empty, the
localization answers without a bbox; the single result is the band from
200 to 600 at full width, confidence 70, source `fallback_heuristic`. -/
theorem tier4_heuristic_crop_witness :
    cascadeDiagrams
        ⟨1000, 800, "sketch the region", "", none, false, true, some [],
          some [], [], none, false, LocateOutcome.notFound⟩ =
      [⟨some "fallback_heuristic", some 70, some (0, 200, 1000, 600)⟩] := by
  have h := tier4_heuristic_crop
    ⟨1000, 800, "sketch the region", "", none, false, true, some [], some [],
      [], none, false, LocateOutcome.notFound⟩
    (by decide) (by decide) (by decide) (by decide) (by decide) (Or.inl rfl)
  simpa using h

/-! Helper lemmas for the tier-gating theorem. -/

theorem stage1_sources (i : CascadeInput) :
    ∀ r ∈ stage1 i, r.source = some "hybrid_ai_detection" := by
  intro r hr
  unfold stage1 at hr
  split at hr
  · unfold tier1Records at hr
    obtain ⟨c, _, rfl⟩ := List.mem_map.mp hr
    rfl
  · simp at hr

theorem tier2Records_sources (i : CascadeInput) :
    ∀ r ∈ tier2Records i,
      r.source = some "yolov8_detection" ∨ r.source = none := by
  intro r hr
  unfold tier2Records at hr
  split at hr
  · obtain ⟨c, _, rfl⟩ := List.mem_map.mp hr
    exact Or.inl rfl
  · obtain ⟨c, _, rfl⟩ := List.mem_map.mp hr
    exact Or.inr rfl

theorem enrichContribution_sources (i : CascadeInput) :
    ∀ r ∈ enrichContribution i, r.source = some "gemini_bbox" := by
  intro r hr
  unfold enrichContribution at hr
  split at hr
  · simp at hr
  · split at hr
    · simp only [List.mem_singleton] at hr
      rw [hr]
    · simp at hr

theorem cascade_of_snapshot_missing (i : CascadeInput)
    (hsnap : i.snapshotExists = false) : cascadeDiagrams i = [] := by
  have hs1 : stage1 i = [] := by
    unfold stage1
    rw [hsnap]
    simp
  have hs2 : stage2 i = [] := by
    unfold stage2
    rw [hsnap, hs1]
    simp
  have he : enrichContribution i = [] := by
    unfold enrichContribution
    split
    · rfl
    · rw [hsnap]
      simp
  have hs3 : stage3 i = [] := by
    unfold stage3
    rw [hs2, he]
    simp
  have hf : finalContribution i = [] := by
    unfold finalContribution
    rw [hsnap]
    simp
  unfold cascadeDiagrams
  rw [hs3, hf]
  simp

theorem cascade_eq_stage1_of_ne (i : CascadeInput) (h : stage1 i ≠ []) :
    cascadeDiagrams i = stage1 i := by
  have hs2 : stage2 i = stage1 i := by
    unfold stage2
    rw [List.isEmpty_eq_false_iff_exists_mem.mpr
      (List.exists_mem_of_ne_nil _ h)]
    simp
  have hs3 : stage3 i = stage1 i := by
    unfold stage3
    rw [hs2, List.isEmpty_eq_false_iff_exists_mem.mpr
      (List.exists_mem_of_ne_nil _ h)]
    simp
  unfold cascadeDiagrams
  rw [hs3, List.isEmpty_eq_false_iff_exists_mem.mpr
    (List.exists_mem_of_ne_nil _ h)]
  simp

theorem stage1_of_kept_nil (i : CascadeInput) (h1 : tier1Kept i = []) :
    stage1 i = [] := by
  have hrec : tier1Records i = [] := by
    unfold tier1Records
    rw [h1]
    rfl
  unfold stage1
  rw [hrec]
  simp

theorem stage2_of_nil (i : CascadeInput) (h1 : stage1 i = [])
    (h2 : tier2Records i = []) : stage2 i = [] := by
  unfold stage2
  rw [h1, h2]
  simp

theorem cascade_eq_tier2 (i : CascadeInput) (hneed : needsOf i = true)
    (hsnap : i.snapshotExists = true) (h1 : stage1 i = [])
    (h2 : tier2Records i ≠ []) : cascadeDiagrams i = tier2Records i := by
  have hs2 : stage2 i = tier2Records i := by
    unfold stage2
    rw [h1, hneed, hsnap]
    simp
  have hne : (stage2 i).isEmpty = false := by
    rw [hs2]
    exact List.isEmpty_eq_false_iff_exists_mem.mpr
      (List.exists_mem_of_ne_nil _ h2)
  have hs3 : stage3 i = tier2Records i := by
    unfold stage3
    rw [hne, hs2]
    simp
  have hne3 : (stage3 i).isEmpty = false := by
    rw [hs3]
    exact List.isEmpty_eq_false_iff_exists_mem.mpr
      (List.exists_mem_of_ne_nil _ h2)
  unfold cascadeDiagrams
  rw [hne3, hs3]
  simp

theorem cascade_eq_enrich (i : CascadeInput) (h2 : stage2 i = [])
    (he : enrichContribution i ≠ []) :
    cascadeDiagrams i = enrichContribution i := by
  have hs3 : stage3 i = enrichContribution i := by
    unfold stage3
    rw [h2]
    simp
  have hne3 : (stage3 i).isEmpty = false := by
    rw [hs3]
    exact List.isEmpty_eq_false_iff_exists_mem.mpr
      (List.exists_mem_of_ne_nil _ he)
  unfold cascadeDiagrams
  rw [hne3, hs3]
  simp

/-- C3 (amended): for a question needing a diagram, Tier 1 runs the hybrid
detection (contour-density + grid; the blob/morphology detection of §4.4
belongs to Tier 2's detector), keeps only candidates with confidence
strictly greater than 85, capped at 3 per page; and a later tier executes
only when every earlier tier produced zero kept candidates: a non-Tier-1
record in the output implies Tier 1 kept nothing; a Tier-3-or-later record
implies Tiers 1 and 2 produced nothing; a final-block record implies the
enrichment-bbox step also produced nothing. -/
theorem cascade_tier_gating (i : CascadeInput) (hneed : needsOf i = true) :
    ((∀ c ∈ tier1Kept i, 85 < c.confidence) ∧ (tier1Kept i).length ≤ 3 ∧
      (∀ l, i.hybridOut = some l → tier1Kept i = codeTier1 l)) ∧
    ((∃ r ∈ cascadeDiagrams i, r.source ≠ some "hybrid_ai_detection") →
      tier1Kept i = []) ∧
    ((∃ r ∈ cascadeDiagrams i, r.source = some "gemini_bbox" ∨
        r.source = some "gemini_intelligent_fallback" ∨
        r.source = some "fallback_heuristic") →
      tier1Kept i = [] ∧ tier2Records i = []) ∧
    ((∃ r ∈ cascadeDiagrams i, r.source = some "gemini_intelligent_fallback" ∨
        r.source = some "fallback_heuristic") →
      tier1Kept i = [] ∧ tier2Records i = [] ∧ enrichContribution i = []) := by
  have hstage1ne : i.snapshotExists = true → tier1Kept i ≠ [] → stage1 i ≠ [] := by
    intro hsnap hkept
    unfold stage1
    rw [hneed, hsnap]
    simp only [Bool.and_self, if_true]
    unfold tier1Records
    simpa using hkept
  refine ⟨⟨?_, ?_, ?_⟩, ?_, ?_, ?_⟩
  · intro c hc
    unfold tier1Kept at hc
    split at hc
    · simp at hc
    · unfold codeTier1 at hc
      have hm := List.mem_of_mem_take hc
      exact of_decide_eq_true (List.mem_filter.mp hm).2
  · unfold tier1Kept
    split
    · simp
    · exact List.length_take_le _ _
  · intro l hl
    unfold tier1Kept
    rw [hl]
  · rintro ⟨r, hr, hrs⟩
    cases hsnapb : i.snapshotExists with
    | false =>
      rw [cascade_of_snapshot_missing i hsnapb] at hr
      simp at hr
    | true =>
      by_cases hkept : tier1Kept i = []
      · exact hkept
      · exfalso
        rw [cascade_eq_stage1_of_ne i (hstage1ne hsnapb hkept)] at hr
        exact hrs (stage1_sources i r hr)
  · rintro ⟨r, hr, hrs⟩
    cases hsnapb : i.snapshotExists with
    | false =>
      rw [cascade_of_snapshot_missing i hsnapb] at hr
      simp at hr
    | true =>
      by_cases hkept : tier1Kept i = []
      · by_cases h2 : tier2Records i = []
        · exact ⟨hkept, h2⟩
        · exfalso
          rw [cascade_eq_tier2 i hneed hsnapb (stage1_of_kept_nil i hkept) h2]
            at hr
          rcases tier2Records_sources i r hr with hy | hy <;>
            rcases hrs with h3 | h3 | h3 <;>
            exact absurd (h3.symm.trans hy) (by decide)
      · exfalso
        rw [cascade_eq_stage1_of_ne i (hstage1ne hsnapb hkept)] at hr
        have hsrc := stage1_sources i r hr
        rcases hrs with h3 | h3 | h3 <;>
          exact absurd (h3.symm.trans hsrc) (by decide)
  · rintro ⟨r, hr, hrs⟩
    cases hsnapb : i.snapshotExists with
    | false =>
      rw [cascade_of_snapshot_missing i hsnapb] at hr
      simp at hr
    | true =>
      by_cases hkept : tier1Kept i = []
      · by_cases h2 : tier2Records i = []
        · by_cases h3 : enrichContribution i = []
          · exact ⟨hkept, h2, h3⟩
          · exfalso
            rw [cascade_eq_enrich i
              (stage2_of_nil i (stage1_of_kept_nil i hkept) h2) h3] at hr
            have hsrc := enrichContribution_sources i r hr
            rcases hrs with h4 | h4 <;>
              exact absurd (h4.symm.trans hsrc) (by decide)
        · exfalso
          rw [cascade_eq_tier2 i hneed hsnapb (stage1_of_kept_nil i hkept) h2]
            at hr
          rcases tier2Records_sources i r hr with hy | hy <;>
            rcases hrs with h4 | h4 <;>
            exact absurd (h4.symm.trans hy) (by decide)
      · exfalso
        rw [cascade_eq_stage1_of_ne i (hstage1ne hsnapb hkept)] at hr
        have hsrc := stage1_sources i r hr
        rcases hrs with h4 | h4 <;>
          exact absurd (h4.symm.trans hsrc) (by decide)

/-- Witness for C3: on a question that reaches the final heuristic tier,
the gating theorem yields that every earlier tier produced nothing. -/
theorem cascade_tier_gating_witness :
    tier1Kept ⟨1000, 800, "Draw a chart", "", none, false, true, some [],
        some [], [], none, false, LocateOutcome.fails⟩ = [] ∧
    tier2Records ⟨1000, 800, "Draw a chart", "", none, false, true, some [],
        some [], [], none, false, LocateOutcome.fails⟩ = [] ∧
    enrichContribution ⟨1000, 800, "Draw a chart", "", none, false, true,
        some [], some [], [], none, false, LocateOutcome.fails⟩ = [] := by
  exact (cascade_tier_gating
    ⟨1000, 800, "Draw a chart", "", none, false, true, some [], some [], [],
      none, false, LocateOutcome.fails⟩ (by decide)).2.2.2
    ⟨⟨some "fallback_heuristic", some 70, some (0, 200, 1000, 600)⟩,
      by decide, Or.inr (by decide)⟩

/-! ### `detect_coordinate_grids`: grid Method 1 and Method 2

Method 1's embedded input is the list of intersection clusters the
morphology + contouring produces: per cluster the bounding rectangle and
the list of `(row, col)` coordinates of its intersection pixels
(`np.column_stack(np.where(region > 0))`).  Method 2's input is the result
of the `cv2.HoughLinesP` call on the adaptive threshold image. -/

/-- `np.unique`: the sorted list of distinct values. -/
def npUnique (l : List ℕ) : List ℕ :=
  List.insertionSort (fun a b => a ≤ b) l.dedup

/-- `np.diff` of a coordinate list: consecutive differences, as exact
rationals (the subsequent statistics divide by the length). -/
def spacings (l : List ℕ) : List ℚ :=
  (l.zip l.tail).map fun p => (p.2 : ℚ) - (p.1 : ℚ)

/-- `np.mean(l) if len(l) > 0 else 0`, exactly. -/
def meanQ (l : List ℚ) : ℚ := if l = [] then 0 else l.sum / l.length

/-- The population variance `np.std(l)**2 if len(l) > 0 else 0`, exactly.
`np.std` itself is `Real.sqrt` of this. -/
def varQ (l : List ℚ) : ℚ :=
  if l = [] then 0 else (l.map fun a => (a - meanQ l) ^ 2).sum / l.length

/-- The source's regularity test `cv < 2.0` where
`cv = std/mean if mean > 0 else 0`: embedded exactly — for `mean > 0`,
`sqrt var / mean < 2` iff `var < 4 * mean^2`; for `mean <= 0` the source's
`cv` is `0`, below the threshold. -/
def cvLt2 (v m : ℚ) : Bool :=
  if 0 < m then decide (v < 4 * m ^ 2) else true

/-- `cvLt2` agrees with the real-valued coefficient-of-variation test the
source performs in floating point, `(std/mean if mean > 0 else 0) < 2`. -/
theorem cvLt2_iff_real (v m : ℚ) :
    cvLt2 v m = true ↔
      (if 0 < m then Real.sqrt (v : ℝ) / (m : ℝ) else 0) < 2 := by
  unfold cvLt2
  by_cases hm : 0 < m
  · rw [if_pos hm, if_pos hm, decide_eq_true_iff]
    have hmR : (0 : ℝ) < (m : ℝ) := by exact_mod_cast hm
    rw [div_lt_iff₀ hmR]
    rw [Real.sqrt_lt' (by linarith : (0 : ℝ) < 2 * (m : ℝ))]
    constructor
    · intro h
      have : (v : ℝ) < 4 * (m : ℝ) ^ 2 := by exact_mod_cast h
      nlinarith
    · intro h
      have : (v : ℝ) < 4 * (m : ℝ) ^ 2 := by nlinarith
      exact_mod_cast this
  · rw [if_neg hm, if_neg hm]
    norm_num

/-- One intersection cluster of Method 1: the bounding rectangle of the
contour and the intersection pixels inside it. -/
structure Cluster where
  x : ℕ
  y : ℕ
  w : ℕ
  h : ℕ
  pts : List (ℕ × ℕ)
deriving DecidableEq, Repr

/-- `y_coords = np.unique(points[:, 0])` — distinct row positions. -/
def rowCoords (c : Cluster) : List ℕ := npUnique (c.pts.map Prod.fst)

/-- `x_coords = np.unique(points[:, 1])` — distinct column positions. -/
def colCoords (c : Cluster) : List ℕ := npUnique (c.pts.map Prod.snd)

def rowMean (c : Cluster) : ℚ := meanQ (spacings (rowCoords c))

def colMean (c : Cluster) : ℚ := meanQ (spacings (colCoords c))

def rowVar (c : Cluster) : ℚ := varQ (spacings (rowCoords c))

def colVar (c : Cluster) : ℚ := varQ (spacings (colCoords c))

/-- An accepted grid candidate with the statistics the source computes it
from.  The stored confidence is
`round(min(rows * cols * 2 + (1.0 - ycv - xcv) * 40, 100), 1)` for Method 1
and `round(min(rows * cols + (1.0 - hcv - vcv) * 50, 100), 1)` for Method 2,
where each cv is `Real.sqrt var / mean`; the candidate carries the exact
statistics the formula is evaluated on. -/
structure GridStats where
  x : ℕ
  y : ℕ
  w : ℕ
  h : ℕ
  density : ℕ
  rows : ℕ
  cols : ℕ
  meanY : ℚ
  meanX : ℚ
  varY : ℚ
  varX : ℚ
  source : String
deriving DecidableEq, Repr

/-- Method 1 on one cluster (`detect_coordinate_grids` lines 171-220):
`area > 1000`, at least 9 intersection points, at least 3 distinct rows and
3 distinct columns, both spacing CVs below 2.0, both mean spacings above
5px, bounding area above 10000; tagged `grid_intersection`, density is the
point count. -/
def method1Eval (c : Cluster) : Option GridStats :=
  if 1000 < c.w * c.h then
    if 9 ≤ c.pts.length then
      if 3 ≤ (rowCoords c).length ∧ 3 ≤ (colCoords c).length then
        if cvLt2 (rowVar c) (rowMean c) && cvLt2 (colVar c) (colMean c) &&
            decide (5 < rowMean c) && decide (5 < colMean c) then
          if 10000 < c.w * c.h then
            some ⟨c.x, c.y, c.w, c.h, c.pts.length, (rowCoords c).length,
              (colCoords c).length, rowMean c, colMean c, rowVar c, colVar c,
              "grid_intersection"⟩
          else none
        else none
      else none
    else none
  else none

def lineDx (l : Line4) : ℤ := |(l.x2 : ℤ) - (l.x1 : ℤ)|

def lineDy (l : Line4) : ℤ := |(l.y2 : ℤ) - (l.y1 : ℤ)|

/-- `if dx > dy * 2:` — horizontal by slope dominance (line 242). -/
def isHorizLine (l : Line4) : Bool := decide (lineDy l * 2 < lineDx l)

/-- `elif dy > dx * 2:` — vertical, only tested when not horizontal
(line 244). -/
def isVertLine (l : Line4) : Bool :=
  !isHorizLine l && decide (lineDx l * 2 < lineDy l)

/-- `(line[1] + line[3]) // 2` — the y midpoint of a horizontal line. -/
def midY (l : Line4) : ℕ := (l.y1 + l.y2) / 2

/-- `(line[0] + line[2]) // 2` — the x midpoint of a vertical line. -/
def midX (l : Line4) : ℕ := (l.x1 + l.x2) / 2

/-- `h_positions = sorted(list(set(...)))` (line 251). -/
def hPositions (lines : List Line4) : List ℕ :=
  npUnique ((lines.filter isHorizLine).map midY)

/-- `v_positions = sorted(list(set(...)))` (line 252). -/
def vPositions (lines : List Line4) : List ℕ :=
  npUnique ((lines.filter isVertLine).map midX)

def listMinN : List ℕ → ℕ
  | [] => 0
  | a :: r => r.foldl min a

def listMaxN : List ℕ → ℕ
  | [] => 0
  | a :: r => r.foldl max a

/-- Method 2 (`detect_coordinate_grids` lines 222-286): gated by
`lines is not None and len(lines) > 6`; classify lines by slope dominance;
require at least 3 horizontal and 3 vertical lines, then at least 3
distinct positions on each axis; both CVs below 2.0 and both mean spacings
above 15px; envelope `(max - min)` on each axis, accepted when its area
exceeds 8000; tagged `grid_lines`, density is the classified line count. -/
def method2Eval : Option (List Line4) → Option GridStats
  | none => none
  | some lines =>
    if 6 < lines.length then
      if 3 ≤ (lines.filter isHorizLine).length ∧
          3 ≤ (lines.filter isVertLine).length then
        if 3 ≤ (hPositions lines).length ∧ 3 ≤ (vPositions lines).length then
          if cvLt2 (varQ (spacings (hPositions lines)))
                (meanQ (spacings (hPositions lines))) &&
              cvLt2 (varQ (spacings (vPositions lines)))
                (meanQ (spacings (vPositions lines))) &&
              decide (15 < meanQ (spacings (hPositions lines))) &&
              decide (15 < meanQ (spacings (vPositions lines))) then
            if 8000 < (listMaxN (vPositions lines) - listMinN (vPositions lines)) *
                (listMaxN (hPositions lines) - listMinN (hPositions lines)) then
              some ⟨listMinN (vPositions lines), listMinN (hPositions lines),
                listMaxN (vPositions lines) - listMinN (vPositions lines),
                listMaxN (hPositions lines) - listMinN (hPositions lines),
                (lines.filter isHorizLine).length +
                  (lines.filter isVertLine).length,
                (hPositions lines).length, (vPositions lines).length,
                meanQ (spacings (hPositions lines)),
                meanQ (spacings (vPositions lines)),
                varQ (spacings (hPositions lines)),
                varQ (spacings (vPositions lines)), "grid_lines"⟩
            else none
          else none
        else none
      else none
    else none

/-- `detect_coordinate_grids` (lines 137-288): Method 1 over every
intersection cluster in order; Method 2 only when Method 1 found nothing. -/
def detectCoordinateGrids (clusters : List Cluster)
    (lines00 : Option (List Line4)) : List GridStats :=
  if (clusters.filterMap method1Eval).isEmpty then
    clusters.filterMap method1Eval ++ (method2Eval lines00).toList
  else clusters.filterMap method1Eval

theorem npUnique_length_le (l : List ℕ) : (npUnique l).length ≤ l.length := by
  unfold npUnique
  rw [(List.perm_insertionSort _ _).length_eq]
  exact l.dedup_sublist.length_le

/-- Decidable characterization of Method 1 acceptance. -/
theorem method1Eval_isSome_iff (c : Cluster) :
    (method1Eval c).isSome = true ↔
      9 ≤ c.pts.length ∧ 3 ≤ (rowCoords c).length ∧
      3 ≤ (colCoords c).length ∧
      cvLt2 (rowVar c) (rowMean c) = true ∧
      cvLt2 (colVar c) (colMean c) = true ∧
      5 < rowMean c ∧ 5 < colMean c ∧ 10000 < c.w * c.h := by
  unfold method1Eval
  split_ifs with h1 h2 h3 h4 h5 <;>
    simp_all [Bool.and_eq_true, decide_eq_true_eq] <;> omega

/-- C7: Method 1 accepts a cluster exactly when it has at least 9
intersection points forming at least 3 distinct rows and 3 distinct
columns, both spacing coefficients of variation (std/mean, 0 when the mean
is not positive) are below 2.0, both mean spacings exceed 5px and the
bounding-box area exceeds 10000 (which subsumes the 1000px pre-filter);
fewer than 3 distinct rows or columns rejects regardless; an accepted
candidate is tagged `grid_intersection` and carries exactly the cluster's
bbox, point count and spacing statistics, on which the confidence formula
`min(rows*cols*2 + (1 - rowCV - colCV)*40, 100)` is evaluated. -/
theorem grid_method1_policy (c : Cluster) :
    ((method1Eval c).isSome = true ↔
      9 ≤ c.pts.length ∧ 3 ≤ (rowCoords c).length ∧
      3 ≤ (colCoords c).length ∧
      (if 0 < rowMean c then
          Real.sqrt ((rowVar c : ℝ)) / ((rowMean c : ℝ)) else 0) < 2 ∧
      (if 0 < colMean c then
          Real.sqrt ((colVar c : ℝ)) / ((colMean c : ℝ)) else 0) < 2 ∧
      5 < rowMean c ∧ 5 < colMean c ∧ 10000 < c.w * c.h) ∧
    ((rowCoords c).length < 3 ∨ (colCoords c).length < 3 →
      method1Eval c = none) ∧
    (∀ g, method1Eval c = some g →
      g.source = "grid_intersection" ∧ g.x = c.x ∧ g.y = c.y ∧ g.w = c.w ∧
      g.h = c.h ∧ g.density = c.pts.length ∧ g.rows = (rowCoords c).length ∧
      g.cols = (colCoords c).length ∧ g.meanY = rowMean c ∧
      g.meanX = colMean c ∧ g.varY = rowVar c ∧ g.varX = colVar c ∧
      min ((g.rows * g.cols * 2 : ℝ) +
          (1 - (if 0 < g.meanY then
              Real.sqrt ((g.varY : ℝ)) / ((g.meanY : ℝ)) else 0) -
            (if 0 < g.meanX then
              Real.sqrt ((g.varX : ℝ)) / ((g.meanX : ℝ)) else 0)) * 40) 100 =
        min (((rowCoords c).length * (colCoords c).length * 2 : ℝ) +
          (1 - (if 0 < rowMean c then
              Real.sqrt ((rowVar c : ℝ)) / ((rowMean c : ℝ)) else 0) -
            (if 0 < colMean c then
              Real.sqrt ((colVar c : ℝ)) / ((colMean c : ℝ)) else 0)) * 40) 100) := by
  refine ⟨?_, ?_, ?_⟩
  · rw [method1Eval_isSome_iff, cvLt2_iff_real, cvLt2_iff_real]
  · intro h
    cases hopt : method1Eval c with
    | none => rfl
    | some g =>
      exfalso
      have hsome : (method1Eval c).isSome = true := by rw [hopt]; rfl
      have hP := (method1Eval_isSome_iff c).mp hsome
      omega
  · intro g hg
    unfold method1Eval at hg
    split_ifs at hg <;> first
      | exact Option.noConfusion hg
      | (injection hg with h
         subst h
         exact ⟨rfl, rfl, rfl, rfl, rfl, rfl, rfl, rfl, rfl, rfl, rfl, rfl, rfl⟩)

/-- Witness for C7: a cluster with 9 points forming only 2 distinct rows is
rejected, whatever its spacing regularity. -/
theorem grid_method1_policy_witness :
    method1Eval ⟨0, 0, 200, 200,
      [(0, 0), (0, 30), (0, 60), (0, 90), (1, 0), (1, 30), (1, 60), (1, 90),
        (0, 120)]⟩ = none :=
  (grid_method1_policy _).2.1 (Or.inl (by decide))

/-- Decidable characterization of Method 2 acceptance: note the
`len(lines) > 6` gate and that at least 3 distinct positions per axis
subsumes the `>= 3` raw line-count test. -/
theorem method2Eval_isSome_iff (lines : List Line4) :
    (method2Eval (some lines)).isSome = true ↔
      6 < lines.length ∧ 3 ≤ (hPositions lines).length ∧
      3 ≤ (vPositions lines).length ∧
      cvLt2 (varQ (spacings (hPositions lines)))
        (meanQ (spacings (hPositions lines))) = true ∧
      cvLt2 (varQ (spacings (vPositions lines)))
        (meanQ (spacings (vPositions lines))) = true ∧
      15 < meanQ (spacings (hPositions lines)) ∧
      15 < meanQ (spacings (vPositions lines)) ∧
      8000 < (listMaxN (vPositions lines) - listMinN (vPositions lines)) *
        (listMaxN (hPositions lines) - listMinN (hPositions lines)) := by
  have hh : (hPositions lines).length ≤ (lines.filter isHorizLine).length := by
    have := npUnique_length_le ((lines.filter isHorizLine).map midY)
    simpa using this
  have hv : (vPositions lines).length ≤ (lines.filter isVertLine).length := by
    have := npUnique_length_le ((lines.filter isVertLine).map midX)
    simpa using this
  simp only [method2Eval]
  split_ifs with h1 h2 h3 h4 h5 <;>
    simp_all [Bool.and_eq_true, decide_eq_true_eq] <;> omega

/-- Exactly 6 Hough lines forming a perfectly regular 3x3 grid of line
positions: 3 horizontal at y = 0, 100, 200 and 3 vertical at
x = 0, 100, 200, each spanning 0..200. -/
def gridSixLines : List Line4 :=
  [⟨0, 0, 200, 0⟩, ⟨0, 100, 200, 100⟩, ⟨0, 200, 200, 200⟩,
   ⟨0, 0, 0, 200⟩, ⟨100, 0, 100, 200⟩, ⟨200, 0, 200, 200⟩]

/-- C8 (corrected), counterexample: the 6-line regular grid satisfies every
condition the claim lists — 3 distinct horizontal and 3 distinct vertical
positions, both CVs 0 < 2.0, both mean spacings 100 > 15px, envelope area
40000 > 8000 — yet Method 2 rejects it, because of the unstated gate
`len(lines) > 6`. -/
theorem grid_method2_six_lines_rejected :
    method2Eval (some gridSixLines) = none ∧
    detectCoordinateGrids [] (some gridSixLines) = [] ∧
    (hPositions gridSixLines).length = 3 ∧
    (vPositions gridSixLines).length = 3 ∧
    (if 0 < meanQ (spacings (hPositions gridSixLines)) then
        Real.sqrt ((varQ (spacings (hPositions gridSixLines)) : ℝ)) /
          ((meanQ (spacings (hPositions gridSixLines)) : ℝ))
      else 0) < 2 ∧
    (if 0 < meanQ (spacings (vPositions gridSixLines)) then
        Real.sqrt ((varQ (spacings (vPositions gridSixLines)) : ℝ)) /
          ((meanQ (spacings (vPositions gridSixLines)) : ℝ))
      else 0) < 2 ∧
    15 < meanQ (spacings (hPositions gridSixLines)) ∧
    15 < meanQ (spacings (vPositions gridSixLines)) ∧
    8000 <
      (listMaxN (vPositions gridSixLines) - listMinN (vPositions gridSixLines)) *
      (listMaxN (hPositions gridSixLines) - listMinN (hPositions gridSixLines)) := by
  have hhp : hPositions gridSixLines = [0, 100, 200] := by decide
  have hvp : vPositions gridSixLines = [0, 100, 200] := by decide
  have hsp : spacings [0, 100, 200] = [100, 100] := by
    norm_num [spacings, List.zip]
  have hne : ([100, 100] : List ℚ) ≠ [] := by simp
  have hmean : meanQ [100, 100] = 100 := by
    simp only [meanQ, if_neg hne]
    norm_num
  have hvar : varQ [100, 100] = 0 := by
    simp only [varQ, if_neg hne, hmean]
    norm_num
  have hcv : (if 0 < meanQ [(100 : ℚ), 100] then
      Real.sqrt ((varQ [(100 : ℚ), 100] : ℝ)) / ((meanQ [(100 : ℚ), 100] : ℝ))
    else 0) < 2 := by
    rw [hmean, hvar]
    norm_num
  refine ⟨by decide, by decide, by decide, by decide, ?_, ?_, ?_, ?_, by decide⟩
  · rw [hhp, hsp]
    exact hcv
  · rw [hvp, hsp]
    exact hcv
  · rw [hhp, hsp, hmean]
    norm_num
  · rw [hvp, hsp, hmean]
    norm_num

/-- C8 (amended): Method 2 runs only when Method 1 found nothing; it
classifies lines as horizontal when `dx > 2*dy` and (failing that) vertical
when `dy > 2*dx`; it requires strictly more than 6 Hough lines in total and
at least 3 distinct horizontal and vertical positions (which subsumes the
raw `>= 3` line-count test); it accepts exactly when additionally both
spacing CVs are below 2.0, both mean spacings exceed 15px and the envelope
area exceeds 8000; the accepted candidate is tagged `grid_lines` and
carries exactly the position counts, the classified-line count and the
spacing statistics on which the confidence formula
`min(hCount*vCount + (1 - hCV - vCV)*50, 100)` is evaluated. -/
theorem grid_method2_policy :
    (∀ (clusters : List Cluster) (lines00 : Option (List Line4)),
      clusters.filterMap method1Eval ≠ [] →
      detectCoordinateGrids clusters lines00 = clusters.filterMap method1Eval) ∧
    (∀ l : Line4, (isHorizLine l = true ↔ lineDy l * 2 < lineDx l) ∧
      (isVertLine l = true ↔
        ¬ lineDy l * 2 < lineDx l ∧ lineDx l * 2 < lineDy l)) ∧
    (∀ lines : List Line4, (method2Eval (some lines)).isSome = true ↔
      6 < lines.length ∧ 3 ≤ (hPositions lines).length ∧
      3 ≤ (vPositions lines).length ∧
      (if 0 < meanQ (spacings (hPositions lines)) then
          Real.sqrt ((varQ (spacings (hPositions lines)) : ℝ)) /
            ((meanQ (spacings (hPositions lines)) : ℝ))
        else 0) < 2 ∧
      (if 0 < meanQ (spacings (vPositions lines)) then
          Real.sqrt ((varQ (spacings (vPositions lines)) : ℝ)) /
            ((meanQ (spacings (vPositions lines)) : ℝ))
        else 0) < 2 ∧
      15 < meanQ (spacings (hPositions lines)) ∧
      15 < meanQ (spacings (vPositions lines)) ∧
      8000 < (listMaxN (vPositions lines) - listMinN (vPositions lines)) *
        (listMaxN (hPositions lines) - listMinN (hPositions lines))) ∧
    (∀ (lines : List Line4) (g : GridStats),
      method2Eval (some lines) = some g →
      g.source = "grid_lines" ∧ g.rows = (hPositions lines).length ∧
      g.cols = (vPositions lines).length ∧
      g.density = (lines.filter isHorizLine).length +
        (lines.filter isVertLine).length ∧
      g.meanY = meanQ (spacings (hPositions lines)) ∧
      g.meanX = meanQ (spacings (vPositions lines)) ∧
      g.varY = varQ (spacings (hPositions lines)) ∧
      g.varX = varQ (spacings (vPositions lines)) ∧
      min ((g.rows * g.cols : ℝ) +
          (1 - (if 0 < g.meanY then
              Real.sqrt ((g.varY : ℝ)) / ((g.meanY : ℝ)) else 0) -
            (if 0 < g.meanX then
              Real.sqrt ((g.varX : ℝ)) / ((g.meanX : ℝ)) else 0)) * 50) 100 =
        min (((hPositions lines).length * (vPositions lines).length : ℝ) +
          (1 - (if 0 < meanQ (spacings (hPositions lines)) then
              Real.sqrt ((varQ (spacings (hPositions lines)) : ℝ)) /
                ((meanQ (spacings (hPositions lines)) : ℝ)) else 0) -
            (if 0 < meanQ (spacings (vPositions lines)) then
              Real.sqrt ((varQ (spacings (vPositions lines)) : ℝ)) /
                ((meanQ (spacings (vPositions lines)) : ℝ)) else 0)) * 50) 100) ∧
    method2Eval none = none := by
  refine ⟨?_, ?_, ?_, ?_, rfl⟩
  · intro clusters lines00 h
    unfold detectCoordinateGrids
    rw [List.isEmpty_eq_false_iff_exists_mem.mpr
      (List.exists_mem_of_ne_nil _ h)]
    simp
  · intro l
    constructor
    · simp [isHorizLine]
    · simp [isVertLine, isHorizLine, Bool.and_eq_true, not_lt]
  · intro lines
    rw [method2Eval_isSome_iff, cvLt2_iff_real, cvLt2_iff_real]
  · intro lines g hg
    simp only [method2Eval] at hg
    split_ifs at hg <;> first
      | exact Option.noConfusion hg
      | (injection hg with h
         subst h
         exact ⟨rfl, rfl, rfl, rfl, rfl, rfl, rfl, rfl, rfl⟩)

/-- Witness for C8: the slope-dominance classification at concrete lines. -/
theorem grid_method2_policy_witness :
    isHorizLine ⟨0, 0, 200, 0⟩ = true ∧ isVertLine ⟨0, 0, 0, 200⟩ = true := by
  exact ⟨(grid_method2_policy.2.1 ⟨0, 0, 200, 0⟩).1.mpr (by decide),
    (grid_method2_policy.2.1 ⟨0, 0, 0, 200⟩).2.mpr (by decide)⟩
